import Mathlib

/-!
Verification of the feature-engineering pipeline of the notebook
02_EEGFeatureModeling.ipynb (EEG motor-imagery feature extraction).

The notebook's own code is glue around external library routines
(neurodsp spectral estimation, FOOOF spectral fitting, pandas tables,
sklearn model training).  We embed the notebook's code shallowly:

* numeric cell values are rationals; a pandas or numpy NaN is modelled
  as the value none of Option, so a table cell has type Option Rat;
* the external library routines that the notebook merely invokes
  (compute_spectrum, FOOOF peak fitting, amp_by_time) are fields of a
  Libs structure: the notebook's functions are parametrised over a Libs
  value, and library contracts appear as explicit hypotheses;
* Python dictionaries keyed by column-name strings, built by repeated
  dict[key].append(v), are association lists of (String, List (Option Rat));
* the notebook's loops over trials and channels become structural
  recursion over the trial index and a fold over the channel list.
-/

namespace EEGNotebook

/-- Sampling rate of the recordings in Hz (notebook constants cell). -/
def eeg_fs : Nat := 250

/-- The EEG channels iterated over by the feature-extraction loops. -/
def eeg_chans : List String := ["C3", "Cz", "C4"]

/-- The alpha band used for peak selection and band-pass filtering,
from the notebook's assignment alpha_range = (7, 12). -/
def alpha_range : ℚ × ℚ := (7, 12)

/-- The frequency range the FOOOF model is fit over (freq_range = [1, 40]). -/
def freq_range : ℚ × ℚ := (1, 40)

/-- A single-channel time series (one trial's waveform for one channel). -/
abbrev Signal := List ℚ

/-- A fitted peak's parameters: (center frequency, power, bandwidth),
one row of fm.peak_params_. -/
abbrev Triple := ℚ × ℚ × ℚ

/-- The peak-selection loop of the FOOOF feature cell:

    peak_params_alpha = []
    for param in peak_params:
        if (param[0] > alpha_range[0]) and (param[0] < alpha_range[1]):
            peak_params_alpha.append(param)
-/
def peak_params_alpha (peak_params : List Triple) : List Triple :=
  peak_params.foldl
    (fun acc param =>
      if alpha_range.1 < param.1 ∧ param.1 < alpha_range.2 then acc ++ [param]
      else acc)
    []

/-- np.mean(l, axis=0) on a list of parameter triples: the element-wise
arithmetic mean (column sums divided by the number of rows). -/
def npMeanAxis0 (l : List Triple) : Triple :=
  ((l.map (fun p => p.1)).sum / l.length,
   (l.map (fun p => p.2.1)).sum / l.length,
   (l.map (fun p => p.2.2)).sum / l.length)

/-- The means value computed per (trial, channel) in the FOOOF cell:

    if len(peak_params_alpha) > 0:
        means = np.mean(peak_params_alpha, axis=0)
    else:
        means = [0, 0, 0]
-/
def alphaPeakMeans (peak_params : List Triple) : Triple :=
  let pa := peak_params_alpha peak_params
  if pa.length > 0 then npMeanAxis0 pa else (0, 0, 0)

/-- The append-if filter loop is List.filter of the branch condition. -/
lemma foldl_append_if_eq_filter (p : Triple → Prop) [DecidablePred p] :
    ∀ (l acc : List Triple),
      l.foldl (fun acc x => if p x then acc ++ [x] else acc) acc
        = acc ++ l.filter (fun x => decide (p x)) := by
  intro l
  induction l with
  | nil => intro acc; simp
  | cons x xs ih =>
    intro acc
    by_cases hx : p x
    · simp [List.foldl_cons, hx, ih, List.filter_cons]
    · simp [List.foldl_cons, hx, ih, List.filter_cons]

lemma peak_params_alpha_eq_filter (peaks : List Triple) :
    peak_params_alpha peaks
      = peaks.filter (fun p => decide ((7 : ℚ) < p.1 ∧ p.1 < 12)) := by
  unfold peak_params_alpha
  rw [foldl_append_if_eq_filter (fun param => alpha_range.1 < param.1 ∧ param.1 < alpha_range.2)]
  simp [alpha_range]

/-- C1: For every fitted peak list, the peak-selection step keeps exactly
the peaks whose center frequency lies strictly inside (7, 12), and when at
least one peak qualifies, the emitted (center frequency, power, bandwidth)
triple is the element-wise arithmetic mean of the qualifying triples: each
component times the number of qualifying peaks equals the corresponding
component sum. -/
theorem peak_selection_strict_band_and_mean (peaks : List Triple) :
    peak_params_alpha peaks
        = peaks.filter (fun p => decide ((7 : ℚ) < p.1 ∧ p.1 < 12))
    ∧ (peak_params_alpha peaks ≠ [] →
        (alphaPeakMeans peaks).1 * (peak_params_alpha peaks).length
            = ((peak_params_alpha peaks).map (fun p => p.1)).sum
        ∧ (alphaPeakMeans peaks).2.1 * (peak_params_alpha peaks).length
            = ((peak_params_alpha peaks).map (fun p => p.2.1)).sum
        ∧ (alphaPeakMeans peaks).2.2 * (peak_params_alpha peaks).length
            = ((peak_params_alpha peaks).map (fun p => p.2.2)).sum) := by
  refine ⟨peak_params_alpha_eq_filter peaks, ?_⟩
  intro hne
  have hlen : 0 < (peak_params_alpha peaks).length := List.length_pos.mpr hne
  have hq : ((peak_params_alpha peaks).length : ℚ) ≠ 0 := by
    exact_mod_cast Nat.pos_iff_ne_zero.mp hlen
  have hmeans : alphaPeakMeans peaks = npMeanAxis0 (peak_params_alpha peaks) := by
    unfold alphaPeakMeans
    simp [hlen]
  rw [hmeans]
  unfold npMeanAxis0
  refine ⟨?_, ?_, ?_⟩ <;> exact div_mul_cancel₀ _ hq

/-- A concrete peak list exercising the selection: 8 and 10 Hz qualify,
5 Hz does not. -/
def demoPeaks : List Triple := [(8, 1, 2), (10, 3, 4), (5, 9, 9)]

theorem peak_selection_strict_band_and_mean_witness :
    peak_params_alpha demoPeaks ≠ []
    ∧ ((alphaPeakMeans demoPeaks).1 * (peak_params_alpha demoPeaks).length
          = ((peak_params_alpha demoPeaks).map (fun p => p.1)).sum
       ∧ (alphaPeakMeans demoPeaks).2.1 * (peak_params_alpha demoPeaks).length
          = ((peak_params_alpha demoPeaks).map (fun p => p.2.1)).sum
       ∧ (alphaPeakMeans demoPeaks).2.2 * (peak_params_alpha demoPeaks).length
          = ((peak_params_alpha demoPeaks).map (fun p => p.2.2)).sum) :=
  ⟨by decide, (peak_selection_strict_band_and_mean demoPeaks).2 (by decide)⟩

/-! External library routines invoked by the notebook.  They are out of the
notebook's scope (spectral estimation, FOOOF fitting, envelope extraction are
library collaborators), so they appear as parameters; the notebook's own code
is verified for every choice of these routines, with the libraries' documented
contracts as explicit hypotheses where a claim needs them. -/

/-- The external routines the feature-extraction cells call.
compute_spectrum takes (signal, fs, method, avg_type, nperseg) and returns
(frequency bins, power values); fooof_peak_params is the composition
add_data + fit + peak_params_ of a FOOOF model, taking (freqs, psd,
freq_range) and returning the fitted peak triples; amp_by_time takes
(signal, fs, band) and returns the instantaneous amplitude envelope, where a
NaN sample (neurodsp trims filter edge artifacts to NaN) is the value none. -/
structure Libs where
  compute_spectrum : Signal → Nat → String → String → Nat → List ℚ × List ℚ
  fooof_peak_params : List ℚ → List ℚ → ℚ × ℚ → List Triple
  amp_by_time : Signal → Nat → ℚ × ℚ → List (Option ℚ)

/-- The helper cell:

    def getMeanFreqPSD(eeg_data, fs=eeg_fs):
        freq_mean, psd_mean = compute_spectrum(eeg_data, fs, method='welch',
                                               avg_type='mean', nperseg=fs*2)
        return freq_mean, psd_mean
-/
def getMeanFreqPSD (lib : Libs) (eeg_data : Signal) (fs : Nat := eeg_fs) :
    List ℚ × List ℚ :=
  lib.compute_spectrum eeg_data fs "welch" "mean" (fs * 2)

/-- C5: getMeanFreqPSD computes a Welch estimate averaged with the mean,
with window length nperseg equal to twice the sample rate (500 samples at
the default 250 Hz rate), and — given the estimator's contract that it
returns frequency and power arrays of one common length — the returned
frequency and power arrays have equal length. -/
theorem getMeanFreqPSD_welch_nperseg_len (lib : Libs) (eeg_data : Signal)
    (hwelch : ∀ s fs m a np, ((lib.compute_spectrum s fs m a np).1).length
        = ((lib.compute_spectrum s fs m a np).2).length) :
    getMeanFreqPSD lib eeg_data
        = lib.compute_spectrum eeg_data eeg_fs "welch" "mean" 500
    ∧ ((getMeanFreqPSD lib eeg_data).1).length
        = ((getMeanFreqPSD lib eeg_data).2).length := by
  constructor
  · rfl
  · exact hwelch eeg_data eeg_fs "welch" "mean" (eeg_fs * 2)

/-- A concrete stand-in spectral estimator obeying the Welch contract:
both returned arrays have nperseg / 2 + 1 entries. -/
def demoSpectrumLib : Libs where
  compute_spectrum := fun _ _ _ _ np =>
    (List.replicate (np / 2 + 1) 0, List.replicate (np / 2 + 1) 0)
  fooof_peak_params := fun _ _ _ => []
  amp_by_time := fun _ _ _ => []

theorem getMeanFreqPSD_welch_nperseg_len_witness :
    getMeanFreqPSD demoSpectrumLib [1, 2, 3]
        = demoSpectrumLib.compute_spectrum [1, 2, 3] eeg_fs "welch" "mean" 500
    ∧ ((getMeanFreqPSD demoSpectrumLib [1, 2, 3]).1).length
        = ((getMeanFreqPSD demoSpectrumLib [1, 2, 3]).2).length :=
  getMeanFreqPSD_welch_nperseg_len demoSpectrumLib [1, 2, 3]
    (by intro s fs m a np; simp [demoSpectrumLib])

/-! The loaded epoch table and the Python dictionaries the loops build. -/

/-- The loaded epoch table eeg_epoch_full_df, as the loops read it: a number
of trials and, for each channel name and trial index, that trial's waveform. -/
structure EpochTable where
  numTrials : Nat
  data : String → Nat → Signal

/-- A table cell: a rational, or none for a NaN. -/
abbrev Val := Option ℚ

/-- A Python dict from column-name strings to lists of cell values, kept in
insertion order. -/
abbrev Dict := List (String × List Val)

/-- Membership test: key in dict. -/
def hasKey : Dict → String → Bool
  | [], _ => false
  | kv :: rest, k => decide (kv.1 = k) || hasKey rest k

/-- The idiom: if key not in dict: dict[key] = []. -/
def ensureKey (d : Dict) (k : String) : Dict :=
  if hasKey d k then d else d ++ [(k, [])]

/-- The idiom dict[key].append(v): append v to the list stored at key. -/
def appendAt (d : Dict) (k : String) (v : Val) : Dict :=
  d.map (fun kv => if kv.1 = k then (kv.1, kv.2 ++ [v]) else kv)

/-- Dictionary lookup (first entry with the key). -/
def dictGet : Dict → String → Option (List Val)
  | [], _ => none
  | kv :: rest, k => if kv.1 = k then some kv.2 else dictGet rest k

/-! np.nanmedian, modelled from numpy's semantics: drop the NaN entries,
sort the rest ascending, and take the middle element (odd count) or the
mean of the two middle elements (even count); an empty input yields NaN. -/

/-- Insert a rational into an ascending-sorted list. -/
def insertSorted (x : ℚ) : List ℚ → List ℚ
  | [] => [x]
  | y :: ys => if x ≤ y then x :: y :: ys else y :: insertSorted x ys

/-- Ascending insertion sort. -/
def sortAsc (l : List ℚ) : List ℚ := l.foldr insertSorted []

/-- np.median of a list of rationals (none for an empty input). -/
def npMedian (l : List ℚ) : Option ℚ :=
  let s := sortAsc l
  let n := s.length
  if n = 0 then none
  else if n % 2 = 1 then s.get? (n / 2)
  else
    match s.get? (n / 2 - 1), s.get? (n / 2) with
    | some a, some b => some ((a + b) / 2)
    | _, _ => none

/-- np.nanmedian on a list with possible NaN entries. -/
def nanmedian (l : List (Option ℚ)) : Option ℚ :=
  npMedian (l.filterMap id)

/-! The alpha instantaneous-amplitude median cell:

    alpha_range = (7, 12)
    alpha_amps = {}
    for i in range(0, len(eeg_epoch_full_df)):
        for ch in eeg_chans:
            amp = amp_by_time(eeg_epoch_full_df[ch][i][:], eeg_fs, alpha_range)
            key = ch + "_" + str(alpha_range) + "_inst_med"
            if key not in alpha_amps:
                alpha_amps[key] = list()
            alpha_amps[key].append(np.nanmedian(amp))
-/

/-- The column key ch + "_" + str(alpha_range) + "_inst_med"; in Python,
str((7, 12)) renders as the text between quotes below. -/
def instMedKey (ch : String) : String := ch ++ "_(7, 12)_inst_med"

/-- State of the alpha-amplitude loop: the (read-only) epoch table and the
accumulating alpha_amps dictionary. -/
structure AlphaState where
  eeg_epoch_full_df : EpochTable
  alpha_amps : Dict

/-- One inner-loop iteration of the alpha-amplitude cell, for trial i and
channel ch. -/
def alphaStep (lib : Libs) (i : Nat) (ch : String) (s : AlphaState) : AlphaState :=
  let amp := lib.amp_by_time (s.eeg_epoch_full_df.data ch i) eeg_fs alpha_range
  let key := instMedKey ch
  { s with alpha_amps := appendAt (ensureKey s.alpha_amps key) key (nanmedian amp) }

/-- The inner for ch in eeg_chans loop for one trial. -/
def alphaTrial (lib : Libs) (i : Nat) (s : AlphaState) : AlphaState :=
  eeg_chans.foldl (fun s ch => alphaStep lib i ch s) s

/-- The outer loop over the first n trials. -/
def alphaLoopAux (lib : Libs) : Nat → AlphaState → AlphaState
  | 0, s => s
  | n + 1, s => alphaTrial lib n (alphaLoopAux lib n s)

/-- The starting state: the loaded epoch table and the empty dictionary. -/
def initAlphaState (t : EpochTable) : AlphaState :=
  { eeg_epoch_full_df := t, alpha_amps := [] }

/-- The whole alpha-amplitude cell: loop over every trial of the table. -/
def alphaLoop (lib : Libs) (s : AlphaState) : AlphaState :=
  alphaLoopAux lib s.eeg_epoch_full_df.numTrials s

/-- The value the alpha cell computes for one (trial, channel) pair. -/
def alphaMedVal (lib : Libs) (t : EpochTable) (ch : String) (i : Nat) : Val :=
  nanmedian (lib.amp_by_time (t.data ch i) eeg_fs alpha_range)

/-- The finished alpha_amps column for a channel across the first n trials. -/
def alphaColumn (lib : Libs) (t : EpochTable) (ch : String) (n : Nat) : List Val :=
  (List.range n).map (alphaMedVal lib t ch)

lemma alphaColumn_succ (lib : Libs) (t : EpochTable) (ch : String) (n : Nat) :
    alphaColumn lib t ch (n + 1)
      = alphaColumn lib t ch n ++ [alphaMedVal lib t ch n] := by
  simp [alphaColumn, List.range_succ]

/-- Processing one trial starting from the empty dictionary creates the
three channel columns, in channel order, each holding that trial's value. -/
lemma alphaTrial_from_empty (lib : Libs) (i : Nat) (t : EpochTable) :
    alphaTrial lib i ⟨t, []⟩
      = ⟨t, [(instMedKey "C3", [alphaMedVal lib t "C3" i]),
             (instMedKey "Cz", [alphaMedVal lib t "Cz" i]),
             (instMedKey "C4", [alphaMedVal lib t "C4" i])]⟩ := rfl

/-- Processing one trial when the three columns already exist appends one
value to each column. -/
lemma alphaTrial_cons (lib : Libs) (i : Nat) (t : EpochTable)
    (c3 cz c4 : List Val) :
    alphaTrial lib i ⟨t, [(instMedKey "C3", c3), (instMedKey "Cz", cz),
                          (instMedKey "C4", c4)]⟩
      = ⟨t, [(instMedKey "C3", c3 ++ [alphaMedVal lib t "C3" i]),
             (instMedKey "Cz", cz ++ [alphaMedVal lib t "Cz" i]),
             (instMedKey "C4", c4 ++ [alphaMedVal lib t "C4" i])]⟩ := rfl

/-- Closed form of the alpha-amplitude loop over n ≥ 1 trials. -/
lemma alphaLoopAux_closed (lib : Libs) (t : EpochTable) :
    ∀ n : Nat, 0 < n →
      alphaLoopAux lib n (initAlphaState t)
        = ⟨t, [(instMedKey "C3", alphaColumn lib t "C3" n),
               (instMedKey "Cz", alphaColumn lib t "Cz" n),
               (instMedKey "C4", alphaColumn lib t "C4" n)]⟩ := by
  intro n
  induction n with
  | zero => intro h; exact absurd h (by decide)
  | succ m ih =>
    intro _
    rcases Nat.eq_zero_or_pos m with hm | hm
    · subst hm
      show alphaTrial lib 0 (alphaLoopAux lib 0 (initAlphaState t)) = _
      rw [show alphaLoopAux lib 0 (initAlphaState t) = ⟨t, []⟩ from rfl,
        alphaTrial_from_empty]
      rfl
    · show alphaTrial lib m (alphaLoopAux lib m (initAlphaState t)) = _
      rw [ih hm, alphaTrial_cons, alphaColumn_succ, alphaColumn_succ,
        alphaColumn_succ]

/-- C3: for every trial i and every EEG channel ch, the alpha_amps column
for ch is the per-trial list of nanmedians of the amp_by_time instantaneous
amplitude envelope computed at 250 Hz over the fixed (7, 12) alpha band, and
its i-th entry is exactly that trial's envelope nanmedian. -/
theorem alpha_amp_feature_is_envelope_median (lib : Libs) (t : EpochTable)
    (i : Nat) (ch : String) (hi : i < t.numTrials) (hch : ch ∈ eeg_chans) :
    dictGet (alphaLoop lib (initAlphaState t)).alpha_amps (instMedKey ch)
        = some (alphaColumn lib t ch t.numTrials)
    ∧ (alphaColumn lib t ch t.numTrials).get? i
        = some (nanmedian (lib.amp_by_time (t.data ch i) eeg_fs alpha_range)) := by
  constructor
  · have hclosed := alphaLoopAux_closed lib t t.numTrials (Nat.pos_of_ne_zero (by omega))
    show dictGet (alphaLoopAux lib (initAlphaState t).eeg_epoch_full_df.numTrials
        (initAlphaState t)).alpha_amps (instMedKey ch) = _
    rw [show (initAlphaState t).eeg_epoch_full_df.numTrials = t.numTrials from rfl,
      hclosed]
    fin_cases hch <;> rfl
  · simp only [alphaColumn, List.get?_map, alphaMedVal]
    rw [List.get?_range hi]
    rfl

/-- A concrete envelope library: the analytic amplitude of a signal is the
signal itself with no NaN samples, peak fitting finds no peaks, and the
spectral estimator returns empty arrays. -/
def demoEnvLib : Libs where
  compute_spectrum := fun _ _ _ _ _ => ([], [])
  fooof_peak_params := fun _ _ _ => []
  amp_by_time := fun sig _ _ => sig.map some

/-- A one-trial epoch table whose every channel holds the waveform [1, 2, 3]. -/
def demoTable : EpochTable where
  numTrials := 1
  data := fun _ _ => [1, 2, 3]

theorem alpha_amp_feature_is_envelope_median_witness :
    (0 < demoTable.numTrials ∧ "C3" ∈ eeg_chans)
    ∧ (dictGet (alphaLoop demoEnvLib (initAlphaState demoTable)).alpha_amps
          (instMedKey "C3")
        = some (alphaColumn demoEnvLib demoTable "C3" demoTable.numTrials)
      ∧ (alphaColumn demoEnvLib demoTable "C3" demoTable.numTrials).get? 0
        = some (nanmedian (demoEnvLib.amp_by_time (demoTable.data "C3" 0) eeg_fs
            alpha_range))) :=
  ⟨⟨by decide, by decide⟩,
    alpha_amp_feature_is_envelope_median demoEnvLib demoTable 0 "C3"
      (by decide) (by decide)⟩

/-! The FOOOF feature-extraction cell (the 8-minute loop).  Per (trial,
channel) it computes the smoothed PSD, fits the FOOOF model over freq_range,
filters the fitted peaks to the alpha band, and appends either the mean
triple or the zero triple to the three per-channel columns, incrementing
num_with_alpha or num_without_alpha accordingly. -/

/-- Column key ch + "_alpha_central_freq". -/
def CF_key (ch : String) : String := ch ++ "_alpha_central_freq"

/-- Column key ch + "_alpha_power". -/
def PW_key (ch : String) : String := ch ++ "_alpha_power"

/-- Column key ch + "_alpha_band_width". -/
def BW_key (ch : String) : String := ch ++ "_alpha_band_width"

/-- The fitted peak triples for one (trial, channel): the PSD from
getMeanFreqPSD fed into the FOOOF model restricted to freq_range. -/
def fittedPeaks (lib : Libs) (t : EpochTable) (i : Nat) (ch : String) :
    List Triple :=
  let fp := getMeanFreqPSD lib (t.data ch i)
  lib.fooof_peak_params fp.1 fp.2 freq_range

/-- State of the FOOOF cell: the (read-only) epoch table, the two peak
counters, and the accumulating fooof_parameters dictionary. -/
structure FooofState where
  eeg_epoch_full_df : EpochTable
  num_with_alpha : Nat
  num_without_alpha : Nat
  fooof_parameters : Dict

/-- The three if key not in fooof_parameters: fooof_parameters[key] = []
statements for one channel, in source order CF, PW, BW. -/
def ensure3 (d : Dict) (ch : String) : Dict :=
  ensureKey (ensureKey (ensureKey d (CF_key ch)) (PW_key ch)) (BW_key ch)

/-- One (trial, channel) iteration of the FOOOF cell. -/
def fooofStep (lib : Libs) (i : Nat) (ch : String) (s : FooofState) :
    FooofState :=
  let d0 := ensure3 s.fooof_parameters ch
  let pa := peak_params_alpha (fittedPeaks lib s.eeg_epoch_full_df i ch)
  if pa.length > 0 then
    let means := npMeanAxis0 pa
    let d1 := appendAt (appendAt (appendAt d0 (CF_key ch) (some means.1)) (PW_key ch) (some means.2.1)) (BW_key ch) (some means.2.2)
    { s with num_with_alpha := s.num_with_alpha + 1, fooof_parameters := d1 }
  else
    let d1 := appendAt (appendAt (appendAt d0 (CF_key ch) (some 0)) (PW_key ch) (some 0)) (BW_key ch) (some 0)
    { s with num_without_alpha := s.num_without_alpha + 1, fooof_parameters := d1 }

/-- The inner for ch in eeg_chans loop for one trial. -/
def fooofTrial (lib : Libs) (i : Nat) (s : FooofState) : FooofState :=
  eeg_chans.foldl (fun s ch => fooofStep lib i ch s) s

/-- The outer loop over the first n trials. -/
def fooofLoopAux (lib : Libs) : Nat → FooofState → FooofState
  | 0, s => s
  | n + 1, s => fooofTrial lib n (fooofLoopAux lib n s)

/-- The starting state: counters at zero and the empty dictionary. -/
def initFooofState (t : EpochTable) : FooofState :=
  { eeg_epoch_full_df := t, num_with_alpha := 0, num_without_alpha := 0,
    fooof_parameters := [] }

/-- The whole FOOOF cell: loop over every trial of the table. -/
def fooofLoop (lib : Libs) (s : FooofState) : FooofState :=
  fooofLoopAux lib s.eeg_epoch_full_df.numTrials s

lemma fooofStep_table (lib : Libs) (i : Nat) (ch : String) (s : FooofState) :
    (fooofStep lib i ch s).eeg_epoch_full_df = s.eeg_epoch_full_df := by
  unfold fooofStep
  by_cases h : 0 < (peak_params_alpha (fittedPeaks lib s.eeg_epoch_full_df i ch)).length
  · simp [h]
  · simp [h]

lemma fooofStep_counters (lib : Libs) (i : Nat) (ch : String) (s : FooofState) :
    ((fooofStep lib i ch s).num_with_alpha = s.num_with_alpha + 1
      ∧ (fooofStep lib i ch s).num_without_alpha = s.num_without_alpha)
    ∨ ((fooofStep lib i ch s).num_with_alpha = s.num_with_alpha
      ∧ (fooofStep lib i ch s).num_without_alpha = s.num_without_alpha + 1) := by
  unfold fooofStep
  by_cases h : 0 < (peak_params_alpha (fittedPeaks lib s.eeg_epoch_full_df i ch)).length
  · left; simp [h]
  · right; simp [h]

lemma fooofStep_sum (lib : Libs) (i : Nat) (ch : String) (s : FooofState) :
    (fooofStep lib i ch s).num_with_alpha + (fooofStep lib i ch s).num_without_alpha
      = s.num_with_alpha + s.num_without_alpha + 1 := by
  rcases fooofStep_counters lib i ch s with ⟨h1, h2⟩ | ⟨h1, h2⟩ <;> omega

lemma fooofTrial_table (lib : Libs) (i : Nat) (s : FooofState) :
    (fooofTrial lib i s).eeg_epoch_full_df = s.eeg_epoch_full_df := by
  unfold fooofTrial
  simp only [eeg_chans, List.foldl_cons, List.foldl_nil]
  rw [fooofStep_table, fooofStep_table, fooofStep_table]

lemma fooofTrial_sum (lib : Libs) (i : Nat) (s : FooofState) :
    (fooofTrial lib i s).num_with_alpha + (fooofTrial lib i s).num_without_alpha
      = s.num_with_alpha + s.num_without_alpha + 3 := by
  have h1 := fooofStep_sum lib i "C3" s
  have h2 := fooofStep_sum lib i "Cz" (fooofStep lib i "C3" s)
  have h3 := fooofStep_sum lib i "C4" (fooofStep lib i "Cz" (fooofStep lib i "C3" s))
  unfold fooofTrial
  simp only [eeg_chans, List.foldl_cons, List.foldl_nil]
  omega

lemma fooofLoopAux_table (lib : Libs) (s : FooofState) :
    ∀ n : Nat, (fooofLoopAux lib n s).eeg_epoch_full_df = s.eeg_epoch_full_df := by
  intro n
  induction n with
  | zero => rfl
  | succ m ih =>
    show (fooofTrial lib m (fooofLoopAux lib m s)).eeg_epoch_full_df = _
    rw [fooofTrial_table, ih]

lemma fooofLoopAux_sum (lib : Libs) (s : FooofState) :
    ∀ n : Nat,
      (fooofLoopAux lib n s).num_with_alpha + (fooofLoopAux lib n s).num_without_alpha
        = s.num_with_alpha + s.num_without_alpha + 3 * n := by
  intro n
  induction n with
  | zero => simp [fooofLoopAux]
  | succ m ih =>
    have h := fooofTrial_sum lib m (fooofLoopAux lib m s)
    have hstep : fooofLoopAux lib (m + 1) s = fooofTrial lib m (fooofLoopAux lib m s) := rfl
    rw [hstep]
    omega

lemma alphaTrial_table (lib : Libs) (i : Nat) (s : AlphaState) :
    (alphaTrial lib i s).eeg_epoch_full_df = s.eeg_epoch_full_df := rfl

lemma alphaLoopAux_table (lib : Libs) (s : AlphaState) :
    ∀ n : Nat, (alphaLoopAux lib n s).eeg_epoch_full_df = s.eeg_epoch_full_df := by
  intro n
  induction n with
  | zero => rfl
  | succ m ih =>
    show (alphaTrial lib m (alphaLoopAux lib m s)).eeg_epoch_full_df = _
    rw [alphaTrial_table, ih]

/-- C8: both feature-extraction loops leave the loaded epoch table exactly
as it was: after the alpha-amplitude loop and after the FOOOF loop the
eeg_epoch_full_df component of the state equals its initial value. -/
theorem epoch_table_read_only (lib : Libs) (sA : AlphaState) (sF : FooofState) :
    (alphaLoop lib sA).eeg_epoch_full_df = sA.eeg_epoch_full_df
    ∧ (fooofLoop lib sF).eeg_epoch_full_df = sF.eeg_epoch_full_df :=
  ⟨alphaLoopAux_table lib sA _, fooofLoopAux_table lib sF _⟩

/-- C10: every (trial, channel) iteration of the FOOOF cell increments
exactly one of num_with_alpha and num_without_alpha by one; consequently,
after the loop over the whole table the counters sum to numTrials times the
number of EEG channels, and the denominator of the reported percentage with
alpha is positive whenever the table is non-empty. -/
theorem alpha_counters_partition (lib : Libs) (t : EpochTable) :
    (∀ (i : Nat) (ch : String) (s : FooofState),
      ((fooofStep lib i ch s).num_with_alpha = s.num_with_alpha + 1
        ∧ (fooofStep lib i ch s).num_without_alpha = s.num_without_alpha)
      ∨ ((fooofStep lib i ch s).num_with_alpha = s.num_with_alpha
        ∧ (fooofStep lib i ch s).num_without_alpha = s.num_without_alpha + 1))
    ∧ (fooofLoop lib (initFooofState t)).num_with_alpha
        + (fooofLoop lib (initFooofState t)).num_without_alpha
        = t.numTrials * eeg_chans.length
    ∧ (0 < t.numTrials →
        0 < (fooofLoop lib (initFooofState t)).num_with_alpha
            + (fooofLoop lib (initFooofState t)).num_without_alpha) := by
  have hsum := fooofLoopAux_sum lib (initFooofState t) t.numTrials
  have hloop : fooofLoop lib (initFooofState t)
      = fooofLoopAux lib t.numTrials (initFooofState t) := rfl
  have hinitw : (initFooofState t).num_with_alpha = 0 := rfl
  have hinitwo : (initFooofState t).num_without_alpha = 0 := rfl
  have hchans : eeg_chans.length = 3 := rfl
  refine ⟨fun i ch s => fooofStep_counters lib i ch s, ?_, ?_⟩
  · rw [hloop, hchans]
    omega
  · intro hpos
    rw [hloop]
    omega

theorem alpha_counters_partition_witness :
    0 < demoTable.numTrials
    ∧ 0 < (fooofLoop demoEnvLib (initFooofState demoTable)).num_with_alpha
          + (fooofLoop demoEnvLib (initFooofState demoTable)).num_without_alpha :=
  ⟨by decide, (alpha_counters_partition demoEnvLib demoTable).2.2 (by decide)⟩

lemma hasKey_append_single (d : Dict) (k : String) :
    hasKey (d ++ [(k, [])]) k = true := by
  induction d with
  | nil => simp [hasKey]
  | cons kv rest ih => simp [hasKey, ih]

lemma hasKey_append_of (d e : Dict) (k : String) (h : hasKey d k = true) :
    hasKey (d ++ e) k = true := by
  induction d with
  | nil => simp [hasKey] at h
  | cons kv rest ih =>
    by_cases hk : kv.1 = k
    · simp [hasKey, hk]
    · simp only [hasKey, hk, decide_eq_true_eq] at h ⊢
      simp at h
      simp [ih h]

lemma hasKey_ensureKey_self (d : Dict) (k : String) :
    hasKey (ensureKey d k) k = true := by
  unfold ensureKey
  by_cases h : hasKey d k
  · simpa [h]
  · simp [h, hasKey_append_single]

lemma hasKey_ensureKey_of (d : Dict) (k k' : String) (h : hasKey d k = true) :
    hasKey (ensureKey d k') k = true := by
  unfold ensureKey
  by_cases h2 : hasKey d k'
  · simpa [h2]
  · simp [h2, hasKey_append_of _ _ _ h]

lemma dictGet_isSome_of_hasKey (d : Dict) (k : String)
    (h : hasKey d k = true) : ∃ l, dictGet d k = some l := by
  induction d with
  | nil => simp [hasKey] at h
  | cons kv rest ih =>
    by_cases hk : kv.1 = k
    · exact ⟨kv.2, by simp [dictGet, hk]⟩
    · have h2 : hasKey rest k = true := by
        simp only [hasKey, hk, decide_eq_true_eq] at h
        simpa using h
      obtain ⟨l, hl⟩ := ih h2
      exact ⟨l, by simp [dictGet, hk, hl]⟩

lemma dictGet_appendAt_self (d : Dict) (k : String) (v : Val) :
    dictGet (appendAt d k v) k = (dictGet d k).map (fun l => l ++ [v]) := by
  induction d with
  | nil => rfl
  | cons kv rest ih =>
    by_cases hk : kv.1 = k
    · simp [appendAt, dictGet, hk]
    · simpa [appendAt, dictGet, hk] using ih

lemma dictGet_appendAt_ne (d : Dict) (k k' : String) (v : Val) (h : k' ≠ k) :
    dictGet (appendAt d k v) k' = dictGet d k' := by
  induction d with
  | nil => rfl
  | cons kv rest ih =>
    by_cases hk : kv.1 = k
    · have hks : ¬ k = k' := fun hh => h hh.symm
      simpa [appendAt, dictGet, hk, hks] using ih
    · by_cases hk2 : kv.1 = k'
      · simp [appendAt, dictGet, hk, hk2, h]
      · simpa [appendAt, dictGet, hk, hk2] using ih

/-- In the no-qualifying-peak branch, the FOOOF step appends the value 0
(not a missing value) to each of the three per-channel columns and
increments only the no-peak counter; stated for any channel whose three
column keys are pairwise distinct. -/
lemma fooofStep_no_peak (lib : Libs) (i : Nat) (ch : String) (s : FooofState)
    (h : peak_params_alpha (fittedPeaks lib s.eeg_epoch_full_df i ch) = [])
    (hCFPW : CF_key ch ≠ PW_key ch) (hCFBW : CF_key ch ≠ BW_key ch)
    (hPWBW : PW_key ch ≠ BW_key ch) :
    (fooofStep lib i ch s).num_without_alpha = s.num_without_alpha + 1
    ∧ (fooofStep lib i ch s).num_with_alpha = s.num_with_alpha
    ∧ ∃ cCF cPW cBW : List Val,
        dictGet (fooofStep lib i ch s).fooof_parameters (CF_key ch)
          = some (cCF ++ [some 0])
        ∧ dictGet (fooofStep lib i ch s).fooof_parameters (PW_key ch)
          = some (cPW ++ [some 0])
        ∧ dictGet (fooofStep lib i ch s).fooof_parameters (BW_key ch)
          = some (cBW ++ [some 0]) := by
  have hlen : ¬ (peak_params_alpha (fittedPeaks lib s.eeg_epoch_full_df i ch)).length > 0 := by
    simp [h]
  have hstep : fooofStep lib i ch s
      = { s with
          num_without_alpha := s.num_without_alpha + 1
          fooof_parameters := appendAt (appendAt (appendAt (ensure3 s.fooof_parameters ch) (CF_key ch) (some 0)) (PW_key ch) (some 0)) (BW_key ch) (some 0) } := by
    unfold fooofStep
    simp [hlen]
  have hCF : hasKey (ensure3 s.fooof_parameters ch) (CF_key ch) = true :=
    hasKey_ensureKey_of _ _ _ (hasKey_ensureKey_of _ _ _ (hasKey_ensureKey_self _ _))
  have hPW : hasKey (ensure3 s.fooof_parameters ch) (PW_key ch) = true :=
    hasKey_ensureKey_of _ _ _ (hasKey_ensureKey_self _ _)
  have hBW : hasKey (ensure3 s.fooof_parameters ch) (BW_key ch) = true :=
    hasKey_ensureKey_self _ _
  obtain ⟨cCF, hcCF⟩ := dictGet_isSome_of_hasKey _ _ hCF
  obtain ⟨cPW, hcPW⟩ := dictGet_isSome_of_hasKey _ _ hPW
  obtain ⟨cBW, hcBW⟩ := dictGet_isSome_of_hasKey _ _ hBW
  rw [hstep]
  refine ⟨rfl, rfl, cCF, cPW, cBW, ?_, ?_, ?_⟩
  · show dictGet (appendAt (appendAt (appendAt (ensure3 s.fooof_parameters ch) (CF_key ch) (some 0)) (PW_key ch) (some 0)) (BW_key ch) (some 0)) (CF_key ch) = _
    rw [dictGet_appendAt_ne _ _ _ _ hCFBW, dictGet_appendAt_ne _ _ _ _ hCFPW,
      dictGet_appendAt_self, hcCF]
    rfl
  · show dictGet (appendAt (appendAt (appendAt (ensure3 s.fooof_parameters ch) (CF_key ch) (some 0)) (PW_key ch) (some 0)) (BW_key ch) (some 0)) (PW_key ch) = _
    rw [dictGet_appendAt_ne _ _ _ _ hPWBW, dictGet_appendAt_self,
      dictGet_appendAt_ne _ _ _ _ (fun hh => hCFPW hh.symm), hcPW]
    rfl
  · show dictGet (appendAt (appendAt (appendAt (ensure3 s.fooof_parameters ch) (CF_key ch) (some 0)) (PW_key ch) (some 0)) (BW_key ch) (some 0)) (BW_key ch) = _
    rw [dictGet_appendAt_self, dictGet_appendAt_ne _ _ _ _ (fun hh => hPWBW hh.symm),
      dictGet_appendAt_ne _ _ _ _ (fun hh => hCFBW hh.symm), hcBW]
    rfl

/-- C2: for a (trial, channel) pair whose fitted peaks contain none with
center frequency strictly inside (7, 12), the FOOOF step appends the value
zero — not a missing value — to each of the three columns (center
frequency, power, bandwidth) for that channel, increments num_without_alpha
by one, and leaves num_with_alpha unchanged. -/
theorem no_alpha_peak_zero_triple_and_counter (lib : Libs) (i : Nat)
    (ch : String) (s : FooofState) (hch : ch ∈ eeg_chans)
    (h : peak_params_alpha (fittedPeaks lib s.eeg_epoch_full_df i ch) = []) :
    (fooofStep lib i ch s).num_without_alpha = s.num_without_alpha + 1
    ∧ (fooofStep lib i ch s).num_with_alpha = s.num_with_alpha
    ∧ ∃ cCF cPW cBW : List Val,
        dictGet (fooofStep lib i ch s).fooof_parameters (CF_key ch)
          = some (cCF ++ [some 0])
        ∧ dictGet (fooofStep lib i ch s).fooof_parameters (PW_key ch)
          = some (cPW ++ [some 0])
        ∧ dictGet (fooofStep lib i ch s).fooof_parameters (BW_key ch)
          = some (cBW ++ [some 0]) := by
  fin_cases hch
  · exact fooofStep_no_peak lib i "C3" s h (by decide) (by decide) (by decide)
  · exact fooofStep_no_peak lib i "Cz" s h (by decide) (by decide) (by decide)
  · exact fooofStep_no_peak lib i "C4" s h (by decide) (by decide) (by decide)

theorem no_alpha_peak_zero_triple_and_counter_witness :
    ("C3" ∈ eeg_chans
      ∧ peak_params_alpha (fittedPeaks demoEnvLib
          (initFooofState demoTable).eeg_epoch_full_df 0 "C3") = [])
    ∧ ((fooofStep demoEnvLib 0 "C3" (initFooofState demoTable)).num_without_alpha
          = (initFooofState demoTable).num_without_alpha + 1
      ∧ (fooofStep demoEnvLib 0 "C3" (initFooofState demoTable)).num_with_alpha
          = (initFooofState demoTable).num_with_alpha
      ∧ ∃ cCF cPW cBW : List Val,
          dictGet (fooofStep demoEnvLib 0 "C3" (initFooofState demoTable)).fooof_parameters
              (CF_key "C3") = some (cCF ++ [some 0])
          ∧ dictGet (fooofStep demoEnvLib 0 "C3" (initFooofState demoTable)).fooof_parameters
              (PW_key "C3") = some (cPW ++ [some 0])
          ∧ dictGet (fooofStep demoEnvLib 0 "C3" (initFooofState demoTable)).fooof_parameters
              (BW_key "C3") = some (cBW ++ [some 0])) :=
  ⟨⟨by decide, by decide⟩,
    no_alpha_peak_zero_triple_and_counter demoEnvLib 0 "C3"
      (initFooofState demoTable) (by decide) (by decide)⟩

/-! pandas tables and the Feature Table Assembler. -/

/-- A pandas DataFrame as the notebook uses it: named columns of cell
values, in order; rows are aligned purely by position. -/
structure DataFrame where
  cols : List (String × List Val)

/-- The table has n rows: every column holds exactly n values. -/
def DataFrame.hasRowCount (df : DataFrame) (n : Nat) : Prop :=
  ∀ c ∈ df.cols, c.2.length = n

instance (df : DataFrame) (n : Nat) : Decidable (df.hasRowCount n) :=
  inferInstanceAs (Decidable (∀ c ∈ df.cols, c.2.length = n))

/-- pd.concat([...], axis=1) on positionally aligned tables: the columns of
the inputs, side by side, in input order. -/
def pd_concat_axis1 (dfs : List DataFrame) : DataFrame :=
  ⟨(dfs.map DataFrame.cols).flatten⟩

lemma pd_concat_hasRowCount (dfs : List DataFrame) (n : Nat)
    (h : ∀ df ∈ dfs, df.hasRowCount n) :
    (pd_concat_axis1 dfs).hasRowCount n := by
  intro c hc
  simp only [pd_concat_axis1, List.mem_flatten] at hc
  obtain ⟨l, hl, hcl⟩ := hc
  obtain ⟨df, hdf, rfl⟩ := List.mem_map.mp hl
  exact h df hdf c hcl

lemma pd_concat_names (dfs : List DataFrame) :
    (pd_concat_axis1 dfs).cols.map Prod.fst
      = (dfs.map (fun df => df.cols.map Prod.fst)).flatten := by
  simp only [pd_concat_axis1, List.map_flatten, List.map_map]
  rfl

lemma pd_concat_mem (dfs : List DataFrame) :
    ∀ df ∈ dfs, ∀ c ∈ df.cols, c ∈ (pd_concat_axis1 dfs).cols := by
  intro df hdf c hc
  simp only [pd_concat_axis1, List.mem_flatten]
  exact ⟨df.cols, List.mem_map_of_mem DataFrame.cols hdf, hc⟩

/-- C4: concatenating positionally aligned feature batches that all have n
rows yields a table with n rows whose column list is the concatenation (and
hence whose column-name set is the union) of the inputs' columns; every
input column appears unchanged in the output — rows are aligned purely by
position, with no join-key reconciliation. -/
theorem assembler_concat_preserves_rows_and_columns (dfs : List DataFrame)
    (n : Nat) (h : ∀ df ∈ dfs, df.hasRowCount n) :
    (pd_concat_axis1 dfs).hasRowCount n
    ∧ (pd_concat_axis1 dfs).cols.map Prod.fst
        = (dfs.map (fun df => df.cols.map Prod.fst)).flatten
    ∧ ∀ df ∈ dfs, ∀ c ∈ df.cols, c ∈ (pd_concat_axis1 dfs).cols :=
  ⟨pd_concat_hasRowCount dfs n h, pd_concat_names dfs, pd_concat_mem dfs⟩

/-- A one-column, one-row table named a. -/
def demoDF1 : DataFrame := ⟨[("a", [some 1])]⟩

/-- A one-column, one-row table named b. -/
def demoDF2 : DataFrame := ⟨[("b", [some 2])]⟩

theorem assembler_concat_preserves_rows_and_columns_witness :
    (∀ df ∈ [demoDF1, demoDF2], df.hasRowCount 1)
    ∧ ((pd_concat_axis1 [demoDF1, demoDF2]).hasRowCount 1
      ∧ (pd_concat_axis1 [demoDF1, demoDF2]).cols.map Prod.fst
          = ([demoDF1, demoDF2].map (fun df => df.cols.map Prod.fst)).flatten
      ∧ ∀ df ∈ [demoDF1, demoDF2], ∀ c ∈ df.cols,
          c ∈ (pd_concat_axis1 [demoDF1, demoDF2]).cols) :=
  ⟨by decide,
    assembler_concat_preserves_rows_and_columns [demoDF1, demoDF2] 1 (by decide)⟩

/-! Persistence: feature_df.to_pickle("W2_feature_df.pkl") in one cell and
feature_df = pickle.load(open("W2_feature_df.pkl", "rb")) in a later cell.
The file system is a store of path-table pairs, newest first; pickle
serialization itself is assumed faithful (it is an external library). -/

/-- The pickle path both cells use. -/
def W2_feature_df_path : String := "W2_feature_df.pkl"

/-- The persisted files: newest write first. -/
abbrev FileStore := List (String × DataFrame)

/-- df.to_pickle(path): write the table under the path. -/
def to_pickle (store : FileStore) (df : DataFrame) (path : String) : FileStore :=
  (path, df) :: store

/-- pickle.load(open(path, "rb")): the most recent table written under the
path, if any. -/
def read_pickle : FileStore → String → Option DataFrame
  | [], _ => none
  | kv :: rest, path => if kv.1 = path then some kv.2 else read_pickle rest path

/-- C7: saving the assembled feature table under the notebook's pickle path
and reloading from that same path yields exactly the saved table — same
cell values and same column order. -/
theorem pickle_round_trip (store : FileStore) (df : DataFrame) :
    read_pickle (to_pickle store df W2_feature_df_path) W2_feature_df_path
        = some df
    ∧ (read_pickle (to_pickle store df W2_feature_df_path)
          W2_feature_df_path).map DataFrame.cols = some df.cols :=
  ⟨rfl, rfl⟩

/-! The train/test split.  The notebook calls
train_test_split(cleaned_feature_df.drop("y", axis=1), cleaned_feature_df["y"])
with no random_state argument. -/

/-- Rotation of a list, used as the seed-indexed row permutation below. -/
def rotateList (seed : Nat) (rows : List ℚ) : List ℚ :=
  rows.drop (seed % rows.length) ++ rows.take (seed % rows.length)

/-- Modelled from the spec: sklearn's train_test_split internals are an
external library; the spec records only that the call shuffles the rows
under ambient random state (no fixed seed is passed) and splits off a 0.25
test fraction.  The ambient random state is the seed argument, the
RNG-dependent permutation is modelled as a seed-indexed rotation, and the
result is (training rows, test rows) with ceil(0.25 n) test rows. -/
def train_test_split (seed : Nat) (rows : List ℚ) : List ℚ × List ℚ :=
  let shuffled := rotateList seed rows
  let nTest := (rows.length + 3) / 4
  (shuffled.drop nTest, shuffled.take nTest)

/-- Four feature-table rows, identified by their values. -/
def demoFeatureRows : List ℚ := [0, 1, 2, 3]

/-- C9: the train/test partition is not a deterministic function of the
input table alone: with the random state unpinned (no fixed seed at the
call site), two runs on the same rows can produce different partitions. -/
theorem train_test_split_not_deterministic :
    ∃ s₁ s₂ : Nat,
      train_test_split s₁ demoFeatureRows ≠ train_test_split s₂ demoFeatureRows :=
  ⟨0, 1, by decide⟩

/-! Closed form of the fooof_parameters dictionary, for the table-shape
invariants. -/

/-- The effect of one FOOOF step on the dictionary alone: ensure the three
channel keys exist, then append the three components of the means triple. -/
def stepParams (lib : Libs) (t : EpochTable) (i : Nat) (ch : String) (d : Dict) : Dict :=
  appendAt (appendAt (appendAt (ensure3 d ch) (CF_key ch) (some (alphaPeakMeans (fittedPeaks lib t i ch)).1)) (PW_key ch) (some (alphaPeakMeans (fittedPeaks lib t i ch)).2.1)) (BW_key ch) (some (alphaPeakMeans (fittedPeaks lib t i ch)).2.2)

lemma fooofStep_params (lib : Libs) (i : Nat) (ch : String) (s : FooofState) :
    (fooofStep lib i ch s).fooof_parameters
      = stepParams lib s.eeg_epoch_full_df i ch s.fooof_parameters := by
  unfold fooofStep stepParams alphaPeakMeans
  by_cases hp : (peak_params_alpha (fittedPeaks lib s.eeg_epoch_full_df i ch)).length > 0
  · simp [hp]
  · simp [hp]

/-- One finished fooof_parameters column: component f of the per-trial means
triple, across the first n trials. -/
def fooofCol (lib : Libs) (t : EpochTable) (ch : String) (f : Triple → ℚ) (n : Nat) : List Val :=
  (List.range n).map (fun i => some (f (alphaPeakMeans (fittedPeaks lib t i ch))))

lemma fooofCol_succ (lib : Libs) (t : EpochTable) (ch : String) (f : Triple → ℚ) (n : Nat) :
    fooofCol lib t ch f (n + 1)
      = fooofCol lib t ch f n ++ [some (f (alphaPeakMeans (fittedPeaks lib t n ch)))] := by
  simp [fooofCol, List.range_succ]

/-- The nine-column dictionary shape the FOOOF loop maintains: per channel,
in channel order, the central-frequency, power, and bandwidth columns. -/
def nineDict (c1 c2 c3 c4 c5 c6 c7 c8 c9 : List Val) : Dict :=
  [(CF_key "C3", c1), (PW_key "C3", c2), (BW_key "C3", c3),
   (CF_key "Cz", c4), (PW_key "Cz", c5), (BW_key "Cz", c6),
   (CF_key "C4", c7), (PW_key "C4", c8), (BW_key "C4", c9)]

/-- The finished fooof_parameters dictionary over n trials. -/
def fooofDictClosed (lib : Libs) (t : EpochTable) (n : Nat) : Dict :=
  nineDict
    (fooofCol lib t "C3" (fun m => m.1) n)
    (fooofCol lib t "C3" (fun m => m.2.1) n)
    (fooofCol lib t "C3" (fun m => m.2.2) n)
    (fooofCol lib t "Cz" (fun m => m.1) n)
    (fooofCol lib t "Cz" (fun m => m.2.1) n)
    (fooofCol lib t "Cz" (fun m => m.2.2) n)
    (fooofCol lib t "C4" (fun m => m.1) n)
    (fooofCol lib t "C4" (fun m => m.2.1) n)
    (fooofCol lib t "C4" (fun m => m.2.2) n)

lemma fooofTrial_params (lib : Libs) (i : Nat) (s : FooofState) :
    (fooofTrial lib i s).fooof_parameters
      = stepParams lib s.eeg_epoch_full_df i "C4"
          (stepParams lib s.eeg_epoch_full_df i "Cz"
            (stepParams lib s.eeg_epoch_full_df i "C3" s.fooof_parameters)) := by
  unfold fooofTrial
  simp only [eeg_chans, List.foldl_cons, List.foldl_nil]
  simp only [fooofStep_params, fooofStep_table]

lemma ensureKey_nine_CF3 (c1 c2 c3 c4 c5 c6 c7 c8 c9 : List Val) :
    ensureKey (nineDict c1 c2 c3 c4 c5 c6 c7 c8 c9) (CF_key "C3") = nineDict c1 c2 c3 c4 c5 c6 c7 c8 c9 := rfl

lemma appendAt_nine_CF3 (v : Val) (c1 c2 c3 c4 c5 c6 c7 c8 c9 : List Val) :
    appendAt (nineDict c1 c2 c3 c4 c5 c6 c7 c8 c9) (CF_key "C3") v = nineDict (c1 ++ [v]) c2 c3 c4 c5 c6 c7 c8 c9 := rfl

lemma ensureKey_nine_PW3 (c1 c2 c3 c4 c5 c6 c7 c8 c9 : List Val) :
    ensureKey (nineDict c1 c2 c3 c4 c5 c6 c7 c8 c9) (PW_key "C3") = nineDict c1 c2 c3 c4 c5 c6 c7 c8 c9 := rfl

lemma appendAt_nine_PW3 (v : Val) (c1 c2 c3 c4 c5 c6 c7 c8 c9 : List Val) :
    appendAt (nineDict c1 c2 c3 c4 c5 c6 c7 c8 c9) (PW_key "C3") v = nineDict c1 (c2 ++ [v]) c3 c4 c5 c6 c7 c8 c9 := rfl

lemma ensureKey_nine_BW3 (c1 c2 c3 c4 c5 c6 c7 c8 c9 : List Val) :
    ensureKey (nineDict c1 c2 c3 c4 c5 c6 c7 c8 c9) (BW_key "C3") = nineDict c1 c2 c3 c4 c5 c6 c7 c8 c9 := rfl

lemma appendAt_nine_BW3 (v : Val) (c1 c2 c3 c4 c5 c6 c7 c8 c9 : List Val) :
    appendAt (nineDict c1 c2 c3 c4 c5 c6 c7 c8 c9) (BW_key "C3") v = nineDict c1 c2 (c3 ++ [v]) c4 c5 c6 c7 c8 c9 := rfl

lemma ensureKey_nine_CFz (c1 c2 c3 c4 c5 c6 c7 c8 c9 : List Val) :
    ensureKey (nineDict c1 c2 c3 c4 c5 c6 c7 c8 c9) (CF_key "Cz") = nineDict c1 c2 c3 c4 c5 c6 c7 c8 c9 := rfl

lemma appendAt_nine_CFz (v : Val) (c1 c2 c3 c4 c5 c6 c7 c8 c9 : List Val) :
    appendAt (nineDict c1 c2 c3 c4 c5 c6 c7 c8 c9) (CF_key "Cz") v = nineDict c1 c2 c3 (c4 ++ [v]) c5 c6 c7 c8 c9 := rfl

lemma ensureKey_nine_PWz (c1 c2 c3 c4 c5 c6 c7 c8 c9 : List Val) :
    ensureKey (nineDict c1 c2 c3 c4 c5 c6 c7 c8 c9) (PW_key "Cz") = nineDict c1 c2 c3 c4 c5 c6 c7 c8 c9 := rfl

lemma appendAt_nine_PWz (v : Val) (c1 c2 c3 c4 c5 c6 c7 c8 c9 : List Val) :
    appendAt (nineDict c1 c2 c3 c4 c5 c6 c7 c8 c9) (PW_key "Cz") v = nineDict c1 c2 c3 c4 (c5 ++ [v]) c6 c7 c8 c9 := rfl

lemma ensureKey_nine_BWz (c1 c2 c3 c4 c5 c6 c7 c8 c9 : List Val) :
    ensureKey (nineDict c1 c2 c3 c4 c5 c6 c7 c8 c9) (BW_key "Cz") = nineDict c1 c2 c3 c4 c5 c6 c7 c8 c9 := rfl

lemma appendAt_nine_BWz (v : Val) (c1 c2 c3 c4 c5 c6 c7 c8 c9 : List Val) :
    appendAt (nineDict c1 c2 c3 c4 c5 c6 c7 c8 c9) (BW_key "Cz") v = nineDict c1 c2 c3 c4 c5 (c6 ++ [v]) c7 c8 c9 := rfl

lemma ensureKey_nine_CF4 (c1 c2 c3 c4 c5 c6 c7 c8 c9 : List Val) :
    ensureKey (nineDict c1 c2 c3 c4 c5 c6 c7 c8 c9) (CF_key "C4") = nineDict c1 c2 c3 c4 c5 c6 c7 c8 c9 := rfl

lemma appendAt_nine_CF4 (v : Val) (c1 c2 c3 c4 c5 c6 c7 c8 c9 : List Val) :
    appendAt (nineDict c1 c2 c3 c4 c5 c6 c7 c8 c9) (CF_key "C4") v = nineDict c1 c2 c3 c4 c5 c6 (c7 ++ [v]) c8 c9 := rfl

lemma ensureKey_nine_PW4 (c1 c2 c3 c4 c5 c6 c7 c8 c9 : List Val) :
    ensureKey (nineDict c1 c2 c3 c4 c5 c6 c7 c8 c9) (PW_key "C4") = nineDict c1 c2 c3 c4 c5 c6 c7 c8 c9 := rfl

lemma appendAt_nine_PW4 (v : Val) (c1 c2 c3 c4 c5 c6 c7 c8 c9 : List Val) :
    appendAt (nineDict c1 c2 c3 c4 c5 c6 c7 c8 c9) (PW_key "C4") v = nineDict c1 c2 c3 c4 c5 c6 c7 (c8 ++ [v]) c9 := rfl

lemma ensureKey_nine_BW4 (c1 c2 c3 c4 c5 c6 c7 c8 c9 : List Val) :
    ensureKey (nineDict c1 c2 c3 c4 c5 c6 c7 c8 c9) (BW_key "C4") = nineDict c1 c2 c3 c4 c5 c6 c7 c8 c9 := rfl

lemma appendAt_nine_BW4 (v : Val) (c1 c2 c3 c4 c5 c6 c7 c8 c9 : List Val) :
    appendAt (nineDict c1 c2 c3 c4 c5 c6 c7 c8 c9) (BW_key "C4") v = nineDict c1 c2 c3 c4 c5 c6 c7 c8 (c9 ++ [v]) := rfl

/-- The first trial, channel C3: starting from the empty dictionary the
step creates the three C3 columns. -/
lemma stepParams_C3_empty (lib : Libs) (t : EpochTable) (i : Nat) :
    stepParams lib t i "C3" ([] : Dict)
      = [(CF_key "C3", [some (alphaPeakMeans (fittedPeaks lib t i "C3")).1]),
         (PW_key "C3", [some (alphaPeakMeans (fittedPeaks lib t i "C3")).2.1]),
         (BW_key "C3", [some (alphaPeakMeans (fittedPeaks lib t i "C3")).2.2])] := rfl

/-- The first trial, channel Cz: the step appends the three Cz columns. -/
lemma stepParams_Cz_three (lib : Libs) (t : EpochTable) (i : Nat)
    (c1 c2 c3 : List Val) :
    stepParams lib t i "Cz" [(CF_key "C3", c1), (PW_key "C3", c2), (BW_key "C3", c3)]
      = [(CF_key "C3", c1), (PW_key "C3", c2), (BW_key "C3", c3),
         (CF_key "Cz", [some (alphaPeakMeans (fittedPeaks lib t i "Cz")).1]),
         (PW_key "Cz", [some (alphaPeakMeans (fittedPeaks lib t i "Cz")).2.1]),
         (BW_key "Cz", [some (alphaPeakMeans (fittedPeaks lib t i "Cz")).2.2])] := rfl

/-- The first trial, channel C4: the step appends the three C4 columns,
completing the nine-column shape. -/
lemma stepParams_C4_six (lib : Libs) (t : EpochTable) (i : Nat)
    (c1 c2 c3 c4 c5 c6 : List Val) :
    stepParams lib t i "C4" [(CF_key "C3", c1), (PW_key "C3", c2), (BW_key "C3", c3),
      (CF_key "Cz", c4), (PW_key "Cz", c5), (BW_key "Cz", c6)]
      = nineDict c1 c2 c3 c4 c5 c6
          [some (alphaPeakMeans (fittedPeaks lib t i "C4")).1]
          [some (alphaPeakMeans (fittedPeaks lib t i "C4")).2.1]
          [some (alphaPeakMeans (fittedPeaks lib t i "C4")).2.2] := rfl

/-- One trial's dictionary update on the nine existing channel columns
appends that trial's three values per channel. -/
lemma stepParams_trial_cons (lib : Libs) (t : EpochTable) (i : Nat)
    (c1 c2 c3 c4 c5 c6 c7 c8 c9 : List Val) :
    stepParams lib t i "C4" (stepParams lib t i "Cz" (stepParams lib t i "C3"
      (nineDict c1 c2 c3 c4 c5 c6 c7 c8 c9)))
    = nineDict
        (c1 ++ [some (alphaPeakMeans (fittedPeaks lib t i "C3")).1])
        (c2 ++ [some (alphaPeakMeans (fittedPeaks lib t i "C3")).2.1])
        (c3 ++ [some (alphaPeakMeans (fittedPeaks lib t i "C3")).2.2])
        (c4 ++ [some (alphaPeakMeans (fittedPeaks lib t i "Cz")).1])
        (c5 ++ [some (alphaPeakMeans (fittedPeaks lib t i "Cz")).2.1])
        (c6 ++ [some (alphaPeakMeans (fittedPeaks lib t i "Cz")).2.2])
        (c7 ++ [some (alphaPeakMeans (fittedPeaks lib t i "C4")).1])
        (c8 ++ [some (alphaPeakMeans (fittedPeaks lib t i "C4")).2.1])
        (c9 ++ [some (alphaPeakMeans (fittedPeaks lib t i "C4")).2.2]) := by
  unfold stepParams ensure3
  rw [ensureKey_nine_CF3, ensureKey_nine_PW3, ensureKey_nine_BW3,
    appendAt_nine_CF3, appendAt_nine_PW3, appendAt_nine_BW3,
    ensureKey_nine_CFz, ensureKey_nine_PWz, ensureKey_nine_BWz,
    appendAt_nine_CFz, appendAt_nine_PWz, appendAt_nine_BWz,
    ensureKey_nine_CF4, ensureKey_nine_PW4, ensureKey_nine_BW4,
    appendAt_nine_CF4, appendAt_nine_PW4, appendAt_nine_BW4]

/-- Closed form of the FOOOF loop dictionary over n ≥ 1 trials. -/
lemma fooofLoopAux_params_closed (lib : Libs) (t : EpochTable) :
    ∀ n : Nat, 0 < n →
      (fooofLoopAux lib n (initFooofState t)).fooof_parameters
        = fooofDictClosed lib t n := by
  intro n
  induction n with
  | zero => intro h; exact absurd h (by decide)
  | succ m ih =>
    intro _
    rcases Nat.eq_zero_or_pos m with hm | hm
    · subst hm
      show (fooofTrial lib 0 (fooofLoopAux lib 0 (initFooofState t))).fooof_parameters = _
      rw [fooofTrial_params]
      show stepParams lib t 0 "C4" (stepParams lib t 0 "Cz" (stepParams lib t 0 "C3" ([] : Dict))) = fooofDictClosed lib t 1
      rw [stepParams_C3_empty, stepParams_Cz_three, stepParams_C4_six]
      rfl
    · show (fooofTrial lib m (fooofLoopAux lib m (initFooofState t))).fooof_parameters = _
      rw [fooofTrial_params, fooofLoopAux_table, ih hm]
      show stepParams lib t m "C4" (stepParams lib t m "Cz" (stepParams lib t m "C3" (fooofDictClosed lib t m))) = _
      simp only [fooofDictClosed]
      rw [stepParams_trial_cons]
      simp only [fooofCol_succ]

/-- pd.DataFrame(alpha_amps): the alpha-amplitude feature table. -/
def alpha_med_df (lib : Libs) (t : EpochTable) : DataFrame :=
  ⟨(alphaLoop lib (initAlphaState t)).alpha_amps⟩

/-- pd.DataFrame(fooof_parameters): the FOOOF feature table. -/
def fooof_parameters_df (lib : Libs) (t : EpochTable) : DataFrame :=
  ⟨(fooofLoop lib (initFooofState t)).fooof_parameters⟩

/-- feature_df = pd.concat([W1_feature_df, alpha_med_df,
fooof_parameters_df], axis=1): the assembled feature table. -/
def feature_df (lib : Libs) (t : EpochTable) (W1 : DataFrame) : DataFrame :=
  pd_concat_axis1 [W1, alpha_med_df lib t, fooof_parameters_df lib t]

lemma alpha_med_df_cols (lib : Libs) (t : EpochTable) (hn : 0 < t.numTrials) :
    (alpha_med_df lib t).cols
      = [(instMedKey "C3", alphaColumn lib t "C3" t.numTrials),
         (instMedKey "Cz", alphaColumn lib t "Cz" t.numTrials),
         (instMedKey "C4", alphaColumn lib t "C4" t.numTrials)] := by
  unfold alpha_med_df alphaLoop
  rw [show (initAlphaState t).eeg_epoch_full_df.numTrials = t.numTrials from rfl,
    alphaLoopAux_closed lib t t.numTrials hn]

lemma fooof_parameters_df_cols (lib : Libs) (t : EpochTable) (hn : 0 < t.numTrials) :
    (fooof_parameters_df lib t).cols = fooofDictClosed lib t t.numTrials := by
  unfold fooof_parameters_df fooofLoop
  rw [show (initFooofState t).eeg_epoch_full_df.numTrials = t.numTrials from rfl,
    fooofLoopAux_params_closed lib t t.numTrials hn]

lemma alpha_med_df_rows (lib : Libs) (t : EpochTable) :
    (alpha_med_df lib t).hasRowCount t.numTrials := by
  rcases Nat.eq_zero_or_pos t.numTrials with hn | hn
  · intro c hc
    unfold alpha_med_df alphaLoop at hc
    rw [show (initAlphaState t).eeg_epoch_full_df.numTrials = t.numTrials from rfl,
      hn] at hc
    simp [alphaLoopAux, initAlphaState] at hc
  · intro c hc
    rw [alpha_med_df_cols lib t hn] at hc
    simp only [List.mem_cons, List.not_mem_nil, or_false] at hc
    rcases hc with rfl | rfl | rfl <;> simp [alphaColumn]

lemma fooof_parameters_df_rows (lib : Libs) (t : EpochTable) :
    (fooof_parameters_df lib t).hasRowCount t.numTrials := by
  rcases Nat.eq_zero_or_pos t.numTrials with hn | hn
  · intro c hc
    unfold fooof_parameters_df fooofLoop at hc
    rw [show (initFooofState t).eeg_epoch_full_df.numTrials = t.numTrials from rfl,
      hn] at hc
    simp [fooofLoopAux, initFooofState] at hc
  · intro c hc
    rw [fooof_parameters_df_cols lib t hn] at hc
    simp only [fooofDictClosed, nineDict, List.mem_cons, List.not_mem_nil,
      or_false] at hc
    rcases hc with rfl | rfl | rfl | rfl | rfl | rfl | rfl | rfl | rfl <;>
      simp [fooofCol]

/-- C6: each generated feature column (the alpha-amplitude-median column
and the three peak-parameter columns per EEG channel) holds exactly one
scalar per trial, the assembled feature table has the epoch table's row
count (given that the week-1 feature table does), and the generated column
names are distinct, each built from the channel name and the feature kind. -/
theorem feature_table_shape_and_names (lib : Libs) (t : EpochTable)
    (W1 : DataFrame) (hW1 : W1.hasRowCount t.numTrials) :
    (alpha_med_df lib t).hasRowCount t.numTrials
    ∧ (fooof_parameters_df lib t).hasRowCount t.numTrials
    ∧ (feature_df lib t W1).hasRowCount t.numTrials
    ∧ ((alpha_med_df lib t).cols.map Prod.fst
        ++ (fooof_parameters_df lib t).cols.map Prod.fst).Nodup
    ∧ (0 < t.numTrials →
        (alpha_med_df lib t).cols.map Prod.fst
            ++ (fooof_parameters_df lib t).cols.map Prod.fst
          = [instMedKey "C3", instMedKey "Cz", instMedKey "C4",
             CF_key "C3", PW_key "C3", BW_key "C3",
             CF_key "Cz", PW_key "Cz", BW_key "Cz",
             CF_key "C4", PW_key "C4", BW_key "C4"]) := by
  have halpha := alpha_med_df_rows lib t
  have hfooof := fooof_parameters_df_rows lib t
  have hconcat : (feature_df lib t W1).hasRowCount t.numTrials := by
    apply pd_concat_hasRowCount
    intro df hdf
    simp only [List.mem_cons, List.not_mem_nil, or_false] at hdf
    rcases hdf with rfl | rfl | rfl
    · exact hW1
    · exact halpha
    · exact hfooof
  refine ⟨halpha, hfooof, hconcat, ?_, ?_⟩
  · rcases Nat.eq_zero_or_pos t.numTrials with hn | hn
    · have ha : (alpha_med_df lib t).cols = [] := by
        unfold alpha_med_df alphaLoop
        rw [show (initAlphaState t).eeg_epoch_full_df.numTrials = t.numTrials from rfl, hn]
        rfl
      have hf : (fooof_parameters_df lib t).cols = [] := by
        unfold fooof_parameters_df fooofLoop
        rw [show (initFooofState t).eeg_epoch_full_df.numTrials = t.numTrials from rfl, hn]
        rfl
      rw [ha, hf]
      simp
    · rw [alpha_med_df_cols lib t hn, fooof_parameters_df_cols lib t hn]
      simp only [fooofDictClosed, nineDict, List.map_cons, List.map_nil,
        List.cons_append, List.nil_append]
      decide
  · intro hn
    rw [alpha_med_df_cols lib t hn, fooof_parameters_df_cols lib t hn]
    rfl

/-- A one-column week-1 feature table with one row, matching demoTable. -/
def demoW1 : DataFrame := ⟨[("y", [some 0])]⟩

theorem feature_table_shape_and_names_witness :
    demoW1.hasRowCount demoTable.numTrials
    ∧ ((alpha_med_df demoEnvLib demoTable).hasRowCount demoTable.numTrials
      ∧ (fooof_parameters_df demoEnvLib demoTable).hasRowCount demoTable.numTrials
      ∧ (feature_df demoEnvLib demoTable demoW1).hasRowCount demoTable.numTrials
      ∧ ((alpha_med_df demoEnvLib demoTable).cols.map Prod.fst
          ++ (fooof_parameters_df demoEnvLib demoTable).cols.map Prod.fst).Nodup
      ∧ (0 < demoTable.numTrials →
          (alpha_med_df demoEnvLib demoTable).cols.map Prod.fst
              ++ (fooof_parameters_df demoEnvLib demoTable).cols.map Prod.fst
            = [instMedKey "C3", instMedKey "Cz", instMedKey "C4",
               CF_key "C3", PW_key "C3", BW_key "C3",
               CF_key "Cz", PW_key "Cz", BW_key "Cz",
               CF_key "C4", PW_key "C4", BW_key "C4"])) :=
  ⟨by decide,
    feature_table_shape_and_names demoEnvLib demoTable demoW1 (by decide)⟩

end EEGNotebook
